import Mathlib

/-!
Shallow embedding of the `k8s-ecommerce` repository:
  * cart service (`src/cart-service/main.go`, first package): Redis-backed
    per-user carts with get / add / remove / clear handlers;
  * product service (same file, second package): fixed in-memory catalog
    with a get-by-id handler;
  * order service (`src/unnamed/part_000`): Postgres-backed order creation
    inside a transaction, list-by-user, and order-detail handlers.

Modelling conventions:
  * Go `int` is embedded as `Int`; store-assigned serial ids as `Nat`.
  * Go `float64` values (`total`, `price`) are only carried and echoed by the
    code, never computed with, so they are embedded as `Rat` holding the exact
    decimal written in the source.
  * The Redis store is an association list from user id to cart; JSON
    marshal/unmarshal round-trips are the identity (the handlers always
    marshal what they just built).
  * Store failures that the claims quantify over (failed SQL inserts, failed
    per-order item queries) are injected through explicit boolean oracles,
    mirroring exactly the error checks in the Go code.
-/

/-- `CartItem` from `src/cart-service/main.go`. -/
structure CartItem where
  productID : Int
  quantity : Int
deriving DecidableEq, Repr

/-- `Cart` from `src/cart-service/main.go`. -/
structure Cart where
  userID : String
  items : List CartItem
deriving DecidableEq, Repr

/-- The Redis store of the cart service: one serialized cart per key
`"cart:"+userID`; since the prefix is fixed, keys are embedded as the user
id itself. -/
abbrev CartStore := List (String × Cart)

/-- `rdb.Get`: `none` models `redis.Nil` (key absent). -/
def storeGet (st : CartStore) (k : String) : Option Cart :=
  (st.find? (fun p => p.1 = k)).map (fun p => p.2)

/-- `rdb.Set`: unconditionally overwrite the value at `k`. -/
def storeSet (st : CartStore) (k : String) (v : Cart) : CartStore :=
  (k, v) :: st.filter (fun p => p.1 ≠ k)

/-- `rdb.Del`: unconditionally delete the value at `k`. -/
def storeDel (st : CartStore) (k : String) : CartStore :=
  st.filter (fun p => p.1 ≠ k)

/-- The `for i, item := range cart.Items` loop of `addToCartHandler`
(lines 136-144): find the first entry with the new item's product id and
increment its quantity there, leaving the rest untouched; `none` when no
entry matches (`found` stays `false`). -/
def addLoop (items : List CartItem) (newItem : CartItem) : Option (List CartItem) :=
  match items with
  | [] => none
  | it :: rest =>
    if it.productID = newItem.productID then
      some ({ it with quantity := it.quantity + newItem.quantity } :: rest)
    else
      (addLoop rest newItem).map (fun r => it :: r)

/-- Lines 136-148 of `addToCartHandler`: increment the matching entry if one
exists, otherwise append the new item. -/
def addToItems (items : List CartItem) (newItem : CartItem) : List CartItem :=
  match addLoop items newItem with
  | some updated => updated
  | none => items ++ [newItem]

/-- `getCartHandler` (lines 81-105): absent key yields the empty cart for
that user; stored carts are returned as stored. -/
def getCartHandler (st : CartStore) (userID : String) : Cart :=
  match storeGet st userID with
  | none => { userID := userID, items := [] }
  | some cart => cart

/-- `addToCartHandler` (lines 107-166), success path: load the cart (empty
when absent), apply the add loop, write back; the response body is the
updated cart (HTTP 201). -/
def addToCartHandler (st : CartStore) (userID : String) (newItem : CartItem) :
    CartStore × Cart :=
  let cart : Cart :=
    match storeGet st userID with
    | none => { userID := userID, items := [] }
    | some c => c
  let cart' : Cart := { cart with items := addToItems cart.items newItem }
  (storeSet st userID cart', cart')

/-- Outcome of `removeFromCartHandler`: 404 when no cart is stored, else the
updated cart (HTTP 200). -/
inductive RemoveResult where
  | notFound
  | ok (cart : Cart)
deriving DecidableEq, Repr

/-- `removeFromCartHandler` (lines 168-225): absent cart signals 404
"Cart not found"; otherwise every entry whose product id matches is dropped
(lines 201-208) and the cart is written back. -/
def removeFromCartHandler (st : CartStore) (userID : String) (productID : Int) :
    CartStore × RemoveResult :=
  match storeGet st userID with
  | none => (st, RemoveResult.notFound)
  | some cart =>
    let newItems := cart.items.filter (fun it => it.productID ≠ productID)
    let cart' : Cart := { cart with items := newItems }
    (storeSet st userID cart', RemoveResult.ok cart')

/-- `clearCartHandler` (lines 227-239): unconditional delete; the response is
always the success message. -/
def clearCartHandler (st : CartStore) (userID : String) : CartStore × String :=
  (storeDel st userID, "Cart cleared successfully")

/-- One cart-service request, for reachability statements over the store. -/
inductive CartOp where
  | get
  | add (item : CartItem)
  | remove (productID : Int)
  | clear
deriving DecidableEq, Repr

/-- The store after serving one request for one user. -/
def runCartOp (st : CartStore) (userID : String) : CartOp → CartStore
  | CartOp.get => st
  | CartOp.add item => (addToCartHandler st userID item).1
  | CartOp.remove pid => (removeFromCartHandler st userID pid).1
  | CartOp.clear => (clearCartHandler st userID).1

/-- The store after serving a sequence of requests, starting from `st`. -/
def runCartOps (st : CartStore) : List (String × CartOp) → CartStore
  | [] => st
  | (uid, op) :: rest => runCartOps (runCartOp st uid op) rest

/-- "At most one CartItem per distinct product_id". -/
def NoDupProducts (items : List CartItem) : Prop :=
  (items.map (fun it => it.productID)).Nodup

theorem addLoop_none_iff (items : List CartItem) (n : CartItem) :
    addLoop items n = none ↔ ∀ it ∈ items, it.productID ≠ n.productID := by
  induction items with
  | nil => simp [addLoop]
  | cons it rest ih =>
    by_cases h : it.productID = n.productID
    · simp [addLoop, h]
    · simp [addLoop, h, ih]

theorem addLoop_some_map (items : List CartItem) (n : CartItem) (r : List CartItem)
    (h : addLoop items n = some r) :
    r.map (fun it => it.productID) = items.map (fun it => it.productID) := by
  induction items generalizing r with
  | nil => simp [addLoop] at h
  | cons it rest ih =>
    by_cases hpid : it.productID = n.productID
    · simp [addLoop, hpid] at h
      subst h
      simp [hpid]
    · simp [addLoop, hpid] at h
      obtain ⟨r', hr', hcons⟩ := h
      subst hcons
      simp [ih r' hr']

theorem addToItems_productIDs_of_found (items : List CartItem) (n : CartItem)
    (h : ∃ it ∈ items, it.productID = n.productID) :
    (addToItems items n).map (fun it => it.productID)
      = items.map (fun it => it.productID) := by
  match hl : addLoop items n with
  | some r =>
    simp [addToItems, hl, addLoop_some_map items n r hl]
  | none =>
    rw [addLoop_none_iff] at hl
    obtain ⟨it, hmem, hpid⟩ := h
    exact absurd hpid (hl it hmem)

theorem addToItems_nodup (items : List CartItem) (n : CartItem)
    (h : NoDupProducts items) : NoDupProducts (addToItems items n) := by
  match hl : addLoop items n with
  | some r =>
    unfold NoDupProducts
    rw [addToItems, hl, addLoop_some_map items n r hl]
    exact h
  | none =>
    have hnone := (addLoop_none_iff items n).mp hl
    unfold NoDupProducts at h ⊢
    simp only [addToItems, hl]
    simp only [List.map_append, List.map_cons, List.map_nil]
    rw [List.nodup_append]
    refine ⟨h, List.nodup_singleton _, ?_⟩
    intro a ha hb
    simp only [List.mem_singleton] at hb
    simp only [List.mem_map] at ha
    obtain ⟨it, hmem, hpid⟩ := ha
    exact hnone it hmem (hpid.trans hb)

theorem map_update_eq_self (n : CartItem) (l : List CartItem)
    (h : ∀ it ∈ l, it.productID ≠ n.productID) :
    l.map (fun it => if it.productID = n.productID
        then { it with quantity := it.quantity + n.quantity } else it) = l := by
  induction l with
  | nil => rfl
  | cons a rest ih =>
    have ha : a.productID ≠ n.productID := h a (List.mem_cons_self a rest)
    simp only [List.map_cons, if_neg ha]
    rw [ih (fun it hit => h it (List.mem_cons_of_mem a hit))]

theorem addToItems_of_found (n : CartItem) :
    ∀ items : List CartItem, NoDupProducts items →
      (∃ it ∈ items, it.productID = n.productID) →
      addToItems items n = items.map (fun it => if it.productID = n.productID
        then { it with quantity := it.quantity + n.quantity } else it) := by
  intro items
  induction items with
  | nil => intro _ h; simp at h
  | cons a rest ih =>
    intro hnd h
    have hndr : NoDupProducts rest := by
      unfold NoDupProducts at hnd ⊢
      simp only [List.map_cons, List.nodup_cons] at hnd
      exact hnd.2
    by_cases ha : a.productID = n.productID
    · have hrest : ∀ it ∈ rest, it.productID ≠ n.productID := by
        intro it hit heq
        unfold NoDupProducts at hnd
        simp only [List.map_cons, List.nodup_cons] at hnd
        exact hnd.1 (by
          rw [← ha] at heq
          exact (List.mem_map).mpr ⟨it, hit, heq⟩)
      simp only [addToItems, addLoop, if_pos ha, List.map_cons]
      rw [map_update_eq_self n rest hrest]
    · obtain ⟨it, hit, hpid⟩ := h
      have hit' : it ∈ rest := by
        rcases List.mem_cons.mp hit with heq | hm
        · exact absurd (heq ▸ hpid) ha
        · exact hm
      have hne : addLoop rest n ≠ none := by
        intro hn
        exact (addLoop_none_iff rest n).mp hn it hit' hpid
      obtain ⟨r, hr⟩ := Option.ne_none_iff_exists'.mp hne
      have hrw : addToItems rest n = r := by simp [addToItems, hr]
      have : addToItems (a :: rest) n = a :: r := by
        simp [addToItems, addLoop, ha, hr]
      rw [this, List.map_cons, if_neg ha, ← hrw, ih hndr ⟨it, hit', hpid⟩]

theorem addToItems_of_not_found (items : List CartItem) (n : CartItem)
    (h : ∀ it ∈ items, it.productID ≠ n.productID) :
    addToItems items n = items ++ [n] := by
  simp [addToItems, (addLoop_none_iff items n).mpr h]

theorem addToCartHandler_snd (st : CartStore) (uid : String) (n : CartItem) :
    (addToCartHandler st uid n).2
      = { getCartHandler st uid with
          items := addToItems (getCartHandler st uid).items n } := by
  simp only [addToCartHandler, getCartHandler]

theorem addToCartHandler_fst (st : CartStore) (uid : String) (n : CartItem) :
    (addToCartHandler st uid n).1 = storeSet st uid (addToCartHandler st uid n).2 := by
  simp only [addToCartHandler, getCartHandler]

theorem storeGet_storeSet_self (st : CartStore) (k : String) (v : Cart) :
    storeGet (storeSet st k v) k = some v := by
  simp [storeGet, storeSet, List.find?]

theorem storeGet_storeDel_self (st : CartStore) (k : String) :
    storeGet (storeDel st k) k = none := by
  have hfind : List.find? (fun p => p.1 = k) (storeDel st k) = none := by
    rw [List.find?_eq_none]
    intro p hp
    have := List.of_mem_filter hp
    simpa using this
  simp [storeGet, hfind]

theorem storeGet_mem (st : CartStore) (k : String) (c : Cart)
    (h : storeGet st k = some c) : ∃ p ∈ st, p.2 = c := by
  unfold storeGet at h
  cases hf : List.find? (fun p => p.1 = k) st with
  | none => rw [hf] at h; simp at h
  | some p =>
    rw [hf] at h
    simp at h
    exact ⟨p, List.mem_of_find?_eq_some hf, h⟩

/-- Every cart stored in the store has at most one entry per product id. -/
def CartStoreInv (st : CartStore) : Prop :=
  ∀ p ∈ st, NoDupProducts p.2.items

theorem noDupProducts_filter (items : List CartItem) (q : CartItem → Bool)
    (h : NoDupProducts items) : NoDupProducts (items.filter q) := by
  unfold NoDupProducts at h ⊢
  exact ((List.filter_sublist items).map (fun it => it.productID)).nodup h

theorem noDupProducts_getCart (st : CartStore) (uid : String)
    (h : CartStoreInv st) : NoDupProducts (getCartHandler st uid).items := by
  unfold getCartHandler
  cases hg : storeGet st uid with
  | none => simp [NoDupProducts]
  | some c =>
    obtain ⟨p, hp, hpc⟩ := storeGet_mem st uid c hg
    simpa [hpc] using h p hp

theorem cartStoreInv_storeSet (st : CartStore) (k : String) (v : Cart)
    (hst : CartStoreInv st) (hv : NoDupProducts v.items) :
    CartStoreInv (storeSet st k v) := by
  intro p hp
  simp only [storeSet, List.mem_cons] at hp
  rcases hp with rfl | hp
  · exact hv
  · exact hst p (List.mem_of_mem_filter hp)

theorem runCartOp_inv (st : CartStore) (uid : String) (op : CartOp)
    (h : CartStoreInv st) : CartStoreInv (runCartOp st uid op) := by
  cases op with
  | get => exact h
  | add n =>
    rw [runCartOp, addToCartHandler_fst]
    refine cartStoreInv_storeSet st uid _ h ?_
    rw [addToCartHandler_snd]
    exact addToItems_nodup _ n (noDupProducts_getCart st uid h)
  | remove pid =>
    simp only [runCartOp, removeFromCartHandler]
    cases hg : storeGet st uid with
    | none => exact h
    | some c =>
      refine cartStoreInv_storeSet st uid _ h ?_
      obtain ⟨p, hp, hpc⟩ := storeGet_mem st uid c hg
      exact noDupProducts_filter c.items _ (by simpa [hpc] using h p hp)
  | clear =>
    intro p hp
    exact h p (List.mem_of_mem_filter hp)

theorem runCartOps_inv : ∀ (ops : List (String × CartOp)) (st : CartStore),
    CartStoreInv st → CartStoreInv (runCartOps st ops) := by
  intro ops
  induction ops with
  | nil => intro st h; exact h
  | cons hd tl ih =>
    intro st h
    exact ih (runCartOp st hd.1 hd.2) (runCartOp_inv st hd.1 hd.2 h)

/-- `Product` from the product service (second package in
`src/cart-service/main.go`). -/
structure Product where
  id : Int
  name : String
  description : String
  price : Rat
  stock : Int
deriving DecidableEq, Repr

/-- The fixed in-memory catalog `products`. -/
def products : List Product :=
  [ { id := 1, name := "Laptop", description := "High-performance laptop",
      price := 999.99, stock := 10 },
    { id := 2, name := "Mouse", description := "Wireless mouse",
      price := 29.99, stock := 50 },
    { id := 3, name := "Keyboard", description := "Mechanical keyboard",
      price := 79.99, stock := 30 },
    { id := 4, name := "Monitor", description := "4K Monitor",
      price := 399.99, stock := 15 },
    { id := 5, name := "Headphones", description := "Noise-cancelling headphones",
      price := 199.99, stock := 25 } ]

/-- Value of a digit string read left to right, as `strconv` accumulates it. -/
def digitsToNat (ds : List Char) : Nat :=
  ds.foldl (fun a c => a * 10 + (c.toNat - 48)) 0

/-- `strconv.Atoi` on a 64-bit platform: optional sign, then at least one
decimal digit, result within the `int64` range; `none` on any parse or
range error. -/
def goAtoi (s : String) : Option Int :=
  let signAndDigits : Bool × List Char :=
    match s.data with
    | '+' :: rest => (false, rest)
    | '-' :: rest => (true, rest)
    | cs => (false, cs)
  let neg := signAndDigits.1
  let ds := signAndDigits.2
  if ds = [] then none
  else if ds.all (fun c => c.isDigit) then
    let v : Int := if neg then -(digitsToNat ds : Int) else (digitsToNat ds : Int)
    if -(2 ^ 63) ≤ v ∧ v ≤ 2 ^ 63 - 1 then some v else none
  else none

/-- Response of `getProductByIDHandler`: 400 on a malformed id, 200 with the
product, or 404 "Product not found". -/
inductive ProductResp where
  | badRequest
  | ok (p : Product)
  | notFound
deriving DecidableEq, Repr

/-- `getProductByIDHandler` (lines 294-314 of the combined file):
`strconv.Atoi` failure yields 400 "Invalid product ID"; otherwise the first
catalog product with the parsed id is returned, and 404 "Product not found"
when none matches. -/
def getProductByIDHandler (idStr : String) : ProductResp :=
  match goAtoi idStr with
  | none => ProductResp.badRequest
  | some n =>
    match products.find? (fun p => p.id = n) with
    | some p => ProductResp.ok p
    | none => ProductResp.notFound

theorem find?_id_eq_some_of_mem (n : Int) (p : Product) :
    ∀ l : List Product, (l.map (fun q => q.id)).Nodup → p ∈ l → p.id = n →
      l.find? (fun q => q.id = n) = some p := by
  intro l
  induction l with
  | nil => intro _ h; simp at h
  | cons a rest ih =>
    intro hnd hmem hid
    rcases List.mem_cons.mp hmem with rfl | hm
    · exact List.find?_cons_of_pos rest (by simp [hid])
    · by_cases ha : a.id = n
      · exfalso
        simp only [List.map_cons, List.nodup_cons] at hnd
        exact hnd.1 (List.mem_map.mpr ⟨p, hm, (hid.trans ha.symm)⟩)
      · rw [List.find?_cons_of_neg rest (by simp [ha])]
        simp only [List.map_cons, List.nodup_cons] at hnd
        exact ih hnd.2 hm hid

/-- C3: on a cart with at most one entry per product id, `add` increments
the quantity of the existing entry with the new item's product id when one
exists and appends the item as a new entry otherwise; in particular, two
adds of the same product id on an initially empty cart leave exactly one
entry for that product id whose quantity is the sum of the two quantities,
both in the 201 response and in the stored cart. -/
theorem claim_C3_add_merges_by_product (st : CartStore) (uid : String) (n : CartItem)
    (hnd : NoDupProducts (getCartHandler st uid).items) :
    ((∃ it ∈ (getCartHandler st uid).items, it.productID = n.productID) →
       (addToCartHandler st uid n).2.items
         = (getCartHandler st uid).items.map (fun it =>
             if it.productID = n.productID
             then { it with quantity := it.quantity + n.quantity } else it)) ∧
    ((∀ it ∈ (getCartHandler st uid).items, it.productID ≠ n.productID) →
       (addToCartHandler st uid n).2.items
         = (getCartHandler st uid).items ++ [n]) ∧
    (∀ (u : String) (pid q1 q2 : Int),
       (addToCartHandler (addToCartHandler [] u ⟨pid, q1⟩).1 u ⟨pid, q2⟩).2.items
          = [⟨pid, q1 + q2⟩] ∧
       (getCartHandler (addToCartHandler (addToCartHandler [] u ⟨pid, q1⟩).1 u ⟨pid, q2⟩).1 u).items
          = [⟨pid, q1 + q2⟩]) := by
  refine ⟨?_, ?_, ?_⟩
  · intro h
    rw [addToCartHandler_snd]
    exact addToItems_of_found n _ hnd h
  · intro h
    rw [addToCartHandler_snd]
    exact addToItems_of_not_found _ n h
  · intro u pid q1 q2
    constructor <;>
      simp [addToCartHandler, getCartHandler, storeGet, storeSet,
        addToItems, addLoop, List.find?]

theorem claim_C3_add_merges_by_product_witness :
    NoDupProducts (getCartHandler [] "u").items ∧
    (addToCartHandler (addToCartHandler [] "u" ⟨7, 1⟩).1 "u" ⟨7, 2⟩).2.items
      = [⟨7, 1 + 2⟩] :=
  ⟨by unfold NoDupProducts; decide,
   ((claim_C3_add_merges_by_product [] "u" ⟨7, 1⟩
      (by unfold NoDupProducts; decide)).2.2 "u" 7 1 2).1⟩

/-- C4: every store reachable from the empty store by any sequence of
get / add / remove / clear requests holds, for every user, a cart with at
most one entry per distinct product id. -/
theorem claim_C4_cart_nodup_invariant (ops : List (String × CartOp))
    (uid : String) (cart : Cart) (h : (uid, cart) ∈ runCartOps [] ops) :
    NoDupProducts cart.items := by
  have hinv : CartStoreInv (runCartOps [] ops) :=
    runCartOps_inv ops [] (by intro p hp; simp at hp)
  exact hinv (uid, cart) h

theorem claim_C4_cart_nodup_invariant_witness :
    (("u", (⟨"u", [⟨1, 2⟩]⟩ : Cart))
        ∈ runCartOps [] [("u", CartOp.add ⟨1, 2⟩)]) ∧
    NoDupProducts (Cart.items ⟨"u", [⟨1, 2⟩]⟩) :=
  ⟨by decide,
   claim_C4_cart_nodup_invariant [("u", CartOp.add ⟨1, 2⟩)] "u" ⟨"u", [⟨1, 2⟩]⟩
     (by decide)⟩

/-- C6: `remove` answers 404 when no cart is stored for the user and leaves
the store unchanged; otherwise it drops every entry with the given product
id (quantities are never decremented), writes the cart back, and a
subsequent `get` returns a cart with no entry for that product id. -/
theorem claim_C6_remove_filters_all (st : CartStore) (uid : String) (pid : Int) :
    (storeGet st uid = none →
       removeFromCartHandler st uid pid = (st, RemoveResult.notFound)) ∧
    (∀ c, storeGet st uid = some c →
       (removeFromCartHandler st uid pid).2
         = RemoveResult.ok
             { c with items := c.items.filter (fun it => it.productID ≠ pid) } ∧
       ∀ it ∈ (getCartHandler (removeFromCartHandler st uid pid).1 uid).items,
         it.productID ≠ pid) := by
  constructor
  · intro h
    simp [removeFromCartHandler, h]
  · intro c h
    refine ⟨by simp [removeFromCartHandler, h], ?_⟩
    have h1 : (removeFromCartHandler st uid pid).1
        = storeSet st uid
            { c with items := c.items.filter (fun it => it.productID ≠ pid) } := by
      simp [removeFromCartHandler, h]
    intro it hit
    rw [h1] at hit
    unfold getCartHandler at hit
    rw [storeGet_storeSet_self] at hit
    have := List.of_mem_filter hit
    simpa using this

theorem claim_C6_remove_filters_all_witness :
    removeFromCartHandler [] "u" 1 = ([], RemoveResult.notFound) ∧
    (removeFromCartHandler [("u", Cart.mk "u" [⟨1, 2⟩, ⟨2, 3⟩])] "u" 1).2
      = RemoveResult.ok
          { Cart.mk "u" [⟨1, 2⟩, ⟨2, 3⟩] with
            items := (Cart.mk "u" [⟨1, 2⟩, ⟨2, 3⟩]).items.filter
              (fun it => it.productID ≠ 1) } :=
  ⟨(claim_C6_remove_filters_all [] "u" 1).1 (by decide),
   ((claim_C6_remove_filters_all [("u", Cart.mk "u" [⟨1, 2⟩, ⟨2, 3⟩])] "u" 1).2
      (Cart.mk "u" [⟨1, 2⟩, ⟨2, 3⟩]) (by decide)).1⟩

/-- C7: `clear` always succeeds with the fixed success message, for every
prior store state (a stored cart or none), and `clear` followed by `get`
yields the empty cart for that user. -/
theorem claim_C7_clear_then_get_empty (st : CartStore) (uid : String) :
    (clearCartHandler st uid).2 = "Cart cleared successfully" ∧
    getCartHandler (clearCartHandler st uid).1 uid
      = { userID := uid, items := [] } := by
  constructor
  · rfl
  · show getCartHandler (storeDel st uid) uid = _
    unfold getCartHandler
    rw [storeGet_storeDel_self]

/-- C9: product lookup by id string: the response is 400 exactly when the
id does not parse as an integer; when it parses and a catalog product has
that id the response is that product; otherwise the response is 404 — and
these three outcomes are the only ones. -/
theorem claim_C9_product_lookup_trichotomy (s : String) :
    (getProductByIDHandler s = ProductResp.badRequest ↔ goAtoi s = none) ∧
    (∀ p, getProductByIDHandler s = ProductResp.ok p ↔
       ∃ n, goAtoi s = some n ∧ p ∈ products ∧ p.id = n) ∧
    (getProductByIDHandler s = ProductResp.notFound ↔
       ∃ n, goAtoi s = some n ∧ ∀ p ∈ products, p.id ≠ n) ∧
    (getProductByIDHandler s = ProductResp.badRequest ∨
     getProductByIDHandler s = ProductResp.notFound ∨
     ∃ p, getProductByIDHandler s = ProductResp.ok p) := by
  have hnd : (products.map (fun q => q.id)).Nodup := by decide
  cases hA : goAtoi s with
  | none =>
    refine ⟨by simp [getProductByIDHandler, hA], ?_, ?_, ?_⟩
    · intro p
      simp [getProductByIDHandler, hA]
    · simp [getProductByIDHandler, hA]
    · exact Or.inl (by simp [getProductByIDHandler, hA])
  | some n =>
    cases hF : products.find? (fun q => q.id = n) with
    | none =>
      have hnone := List.find?_eq_none.mp hF
      refine ⟨by simp [getProductByIDHandler, hA, hF], ?_, ?_, ?_⟩
      · intro p
        constructor
        · intro h
          simp [getProductByIDHandler, hA, hF] at h
        · rintro ⟨n', hn', hmem, hid⟩
          cases hn'
          exact absurd hid (by simpa using hnone p hmem)
      · constructor
        · intro _
          exact ⟨n, rfl, fun p hp => by simpa using hnone p hp⟩
        · intro _
          simp [getProductByIDHandler, hA, hF]
      · exact Or.inr (Or.inl (by simp [getProductByIDHandler, hA, hF]))
    | some p0 =>
      have hmem0 := List.mem_of_find?_eq_some hF
      have hid0 : p0.id = n := by simpa using List.find?_some hF
      refine ⟨by simp [getProductByIDHandler, hA, hF], ?_, ?_, ?_⟩
      · intro p
        constructor
        · intro h
          simp only [getProductByIDHandler, hA, hF] at h
          cases h
          exact ⟨n, rfl, hmem0, hid0⟩
        · rintro ⟨n', hn', hmem, hid⟩
          cases hn'
          have := find?_id_eq_some_of_mem n p products hnd hmem hid
          rw [hF] at this
          cases this
          simp [getProductByIDHandler, hA, hF]
      · constructor
        · intro h
          simp [getProductByIDHandler, hA, hF] at h
        · rintro ⟨n', hn', hall⟩
          cases hn'
          exact absurd hid0 (hall p0 hmem0)
      · exact Or.inr (Or.inr ⟨p0, by simp [getProductByIDHandler, hA, hF]⟩)

/-- `OrderItem` from `src/unnamed/part_000`. -/
structure OrderItem where
  productID : Int
  quantity : Int
deriving DecidableEq, Repr

/-- `Order` from `src/unnamed/part_000`; `createdAt` is an abstract clock
reading (`time.Time` embedded as `Nat`). -/
structure Order where
  id : Int
  userID : String
  items : List OrderItem
  total : Rat
  status : String
  createdAt : Nat
deriving DecidableEq, Repr

/-- One row of the `orders` table (`id SERIAL, user_id, total, status,
created_at DEFAULT CURRENT_TIMESTAMP`). -/
structure OrderRow where
  id : Int
  userID : String
  total : Rat
  status : String
  createdAt : Nat
deriving DecidableEq, Repr

/-- The relational store of the order service: the `orders` table, the
`order_items` table (each row keyed by its `order_id`; the serial
`order_items.id` column is never read and is not carried), and the next
value of the `orders.id` sequence. -/
structure OrderDB where
  orders : List OrderRow
  orderItems : List (Int × OrderItem)
  nextID : Int
deriving DecidableEq, Repr

/-- The freshly provisioned database: empty tables, `SERIAL` sequence at 1. -/
def initialDB : OrderDB := { orders := [], orderItems := [], nextID := 1 }

/-- The decoded body of `POST /orders`. -/
structure OrderRequest where
  userID : String
  items : List OrderItem
  total : Rat
deriving DecidableEq, Repr

/-- Response of `createOrderHandler`, one constructor per `WriteHeader` /
error-message pair in the source. -/
inductive CreateResult where
  | invalidArg
  | internalOrder
  | internalItems
  | internalCommit
  | created (o : Order)
deriving DecidableEq, Repr

/-- HTTP status written for each `createOrderHandler` outcome. -/
def createStatus : CreateResult → Nat
  | CreateResult.invalidArg => 400
  | CreateResult.internalOrder => 500
  | CreateResult.internalItems => 500
  | CreateResult.internalCommit => 500
  | CreateResult.created _ => 201

/-- Error body written for each `createOrderHandler` outcome (`none` on the
201 path, which writes the order instead). -/
def createErrorMsg : CreateResult → Option String
  | CreateResult.invalidArg => some "User ID and items are required"
  | CreateResult.internalOrder => some "Failed to create order"
  | CreateResult.internalItems => some "Failed to create order items"
  | CreateResult.internalCommit => some "Failed to commit order"
  | CreateResult.created _ => none

/-- The `for _, item := range orderRequest.Items` insert loop of
`createOrderHandler` (lines 184-195), acting on the transaction snapshot
`tx`: each iteration either fails (oracle `fail` at the running index,
modelling a failed `tx.Exec`) and returns immediately, or appends the item
row. Returns the final snapshot (`none` after a failure, since the
deferred `tx.Rollback` discards it) together with the number of item
inserts attempted. -/
def insertOrderItems (oid : Int) (fail : Nat → Bool) :
    OrderDB → Nat → List OrderItem → Option OrderDB × Nat
  | tx, _, [] => (some tx, 0)
  | tx, idx, it :: rest =>
    if fail idx then (none, 1)
    else
      let tx' : OrderDB := { tx with orderItems := tx.orderItems ++ [(oid, it)] }
      let res := insertOrderItems oid fail tx' (idx + 1) rest
      (res.1, res.2 + 1)

/-- `createOrderHandler` (lines 141-215). Failure oracles model the store:
`headerFail` a failed header `INSERT ... RETURNING id`, `itemFail i` a
failed insert of the i-th item row, `commitFail` a failed `tx.Commit`; on
any failure the deferred `tx.Rollback` leaves the database unchanged. `now`
is the caller's `time.Now()` used in the response, `dbNow` the store clock
used for the row's `created_at` default. Returns the database after the
request, the response, and the number of item inserts attempted. -/
def createOrderHandler (st : OrderDB) (req : OrderRequest) (now dbNow : Nat)
    (headerFail : Bool) (itemFail : Nat → Bool) (commitFail : Bool) :
    OrderDB × CreateResult × Nat :=
  if req.userID = "" ∨ req.items = [] then
    (st, CreateResult.invalidArg, 0)
  else if headerFail then
    (st, CreateResult.internalOrder, 0)
  else
    let orderID := st.nextID
    let tx : OrderDB :=
      { st with
        orders := st.orders
          ++ [{ id := orderID, userID := req.userID, total := req.total,
                status := "pending", createdAt := dbNow }],
        nextID := st.nextID + 1 }
    match insertOrderItems orderID itemFail tx 0 req.items with
    | (none, attempted) => (st, CreateResult.internalItems, attempted)
    | (some tx', attempted) =>
      if commitFail then (st, CreateResult.internalCommit, attempted)
      else
        (tx',
         CreateResult.created
           { id := orderID, userID := req.userID, items := req.items,
             total := req.total, status := "pending", createdAt := now },
         attempted)

/-- `SELECT product_id, quantity FROM order_items WHERE order_id = $1`. -/
def itemsForOrder (st : OrderDB) (oid : Int) : List OrderItem :=
  (st.orderItems.filter (fun p => p.1 = oid)).map (fun p => p.2)

/-- Response of `getUserOrdersHandler`: 500 when the top-level orders query
fails, else 200 with the aggregated list. -/
inductive ListResult where
  | internalErr
  | ok (orders : List Order)
deriving DecidableEq, Repr

/-- `getUserOrdersHandler` (lines 217-265). `queryFail` models a failed
top-level `SELECT ... FROM orders WHERE user_id = $1`; `itemQueryFail oid`
models a failed per-order `SELECT ... FROM order_items` for order `oid`,
on which the Go code does `continue`, dropping that order from the
aggregated slice. Row `Scan` always succeeds here because rows are
well-typed. The `ORDER BY created_at DESC` clause only permutes the rows;
the claims over this handler are membership claims, so rows are kept in
stored order. -/
def getUserOrdersHandler (st : OrderDB) (uid : String) (queryFail : Bool)
    (itemQueryFail : Int → Bool) : ListResult :=
  if queryFail then ListResult.internalErr
  else
    ListResult.ok
      ((st.orders.filter (fun o => o.userID = uid)).filterMap (fun o =>
        if itemQueryFail o.id then none
        else
          some { id := o.id, userID := o.userID, items := itemsForOrder st o.id,
                 total := o.total, status := o.status,
                 createdAt := o.createdAt }))

/-- Result of the header query of `getOrderDetailHandler`: a row, no rows
(`sql.ErrNoRows`), or any other query error. -/
inductive RowQueryResult where
  | row (r : OrderRow)
  | noRows
  | queryErr
deriving DecidableEq, Repr

/-- `SELECT ... FROM orders WHERE id = $1` with the raw path segment bound
as `$1`. The store (Postgres) coerces the text parameter to the integer
column type: a non-numeric string raises a query error — an error distinct
from `sql.ErrNoRows`; a numeric string behaves as its integer value. -/
def queryOrderByIDString (st : OrderDB) (s : String) : RowQueryResult :=
  match goAtoi s with
  | none => RowQueryResult.queryErr
  | some n =>
    match st.orders.find? (fun o => o.id = n) with
    | some r => RowQueryResult.row r
    | none => RowQueryResult.noRows

/-- Response of `getOrderDetailHandler`. -/
inductive DetailResult where
  | notFound
  | internalErr
  | ok (o : Order)
deriving DecidableEq, Repr

/-- `getOrderDetailHandler` (lines 267-309): `sql.ErrNoRows` yields 404
"Order not found", any other header-query error yields 500 "Failed to
retrieve order"; a failed items query (`itemQueryFail`) is also hard here,
yielding 500 "Failed to retrieve order items". There is no 400 path. -/
def getOrderDetailHandler (st : OrderDB) (s : String) (itemQueryFail : Bool) :
    DetailResult :=
  match queryOrderByIDString st s with
  | RowQueryResult.queryErr => DetailResult.internalErr
  | RowQueryResult.noRows => DetailResult.notFound
  | RowQueryResult.row r =>
    if itemQueryFail then DetailResult.internalErr
    else
      DetailResult.ok
        { id := r.id, userID := r.userID, items := itemsForOrder st r.id,
          total := r.total, status := r.status, createdAt := r.createdAt }

theorem insertOrderItems_of_exists_fail (oid : Int) (fail : Nat → Bool) :
    ∀ (items : List OrderItem) (tx : OrderDB) (idx : Nat),
      (∃ i, i < items.length ∧ fail (idx + i) = true) →
      ∃ k, insertOrderItems oid fail tx idx items = (none, k) ∧ 1 ≤ k ∧
        k - 1 < items.length ∧ fail (idx + (k - 1)) = true ∧
        ∀ j < k - 1, fail (idx + j) = false := by
  intro items
  induction items with
  | nil =>
    intro tx idx h
    obtain ⟨i, hi, _⟩ := h
    simp at hi
  | cons it rest ih =>
    intro tx idx h
    by_cases h0 : fail idx = true
    · refine ⟨1, by simp [insertOrderItems, h0], le_refl 1, by simp, ?_, ?_⟩
      · simpa using h0
      · intro j hj
        omega
    · have h0' : fail idx = false := by
        cases hfi : fail idx
        · rfl
        · exact absurd hfi h0
      obtain ⟨i, hi, hf⟩ := h
      have hi0 : i ≠ 0 := by
        rintro rfl
        rw [Nat.add_zero] at hf
        exact h0 hf
      obtain ⟨i', rfl⟩ := Nat.exists_eq_succ_of_ne_zero hi0
      have hex : ∃ j, j < rest.length ∧ fail ((idx + 1) + j) = true := by
        refine ⟨i', by simpa using hi, ?_⟩
        rw [show idx + 1 + i' = idx + (i' + 1) by omega]
        exact hf
      obtain ⟨k', heq, hk1, hklt, hkfail, hkprev⟩ :=
        ih { tx with orderItems := tx.orderItems ++ [(oid, it)] } (idx + 1) hex
      refine ⟨k' + 1, ?_, by omega, by simp only [List.length_cons]; omega, ?_, ?_⟩
      · simp [insertOrderItems, h0', heq]
      · have harith : (idx + 1) + (k' - 1) = idx + (k' + 1 - 1) := by omega
        rwa [harith] at hkfail
      · intro j hj
        cases j with
        | zero => simpa using h0'
        | succ j' =>
          have := hkprev j' (by omega)
          rwa [show (idx + 1) + j' = idx + (j' + 1) by omega] at this

theorem insertOrderItems_all_ok (oid : Int) (fail : Nat → Bool) :
    ∀ (items : List OrderItem) (tx : OrderDB) (idx : Nat),
      (∀ i, i < items.length → fail (idx + i) = false) →
      ∃ tx', insertOrderItems oid fail tx idx items = (some tx', items.length) := by
  intro items
  induction items with
  | nil =>
    intro tx idx _
    exact ⟨tx, rfl⟩
  | cons it rest ih =>
    intro tx idx h
    have h0 : fail idx = false := by simpa using h 0 (by simp)
    obtain ⟨tx', htx'⟩ :=
      ih { tx with orderItems := tx.orderItems ++ [(oid, it)] } (idx + 1)
        (fun i hi => by
          have := h (i + 1) (by simpa using Nat.succ_lt_succ hi)
          rwa [show idx + (i + 1) = (idx + 1) + i by omega] at this)
    refine ⟨tx', ?_⟩
    simp [insertOrderItems, h0, htx']

theorem getUserOrders_ok_mem (st : OrderDB) (uid : String) (itemQF : Int → Bool)
    (os : List Order) (h : getUserOrdersHandler st uid false itemQF = ListResult.ok os)
    (o : Order) (ho : o ∈ os) : ∃ row ∈ st.orders, row.id = o.id := by
  simp only [getUserOrdersHandler, if_neg (by simp : ¬(false = true))] at h
  cases h
  obtain ⟨row, hrow, hsome⟩ := List.mem_filterMap.mp ho
  refine ⟨row, List.mem_of_mem_filter hrow, ?_⟩
  by_cases hq : itemQF row.id
  · simp [hq] at hsome
  · simp only [hq, if_false, Bool.false_eq_true] at hsome
    cases hsome
    rfl

/-- C1: order creation is atomic and reports only the first failure: for a
validated request, if the header insert or any item insert fails, the
database is unchanged (rollback: neither the order row nor any item row
persists, so a subsequent `listByUser` shows no order with the attempted
id), the caller gets a 500 Internal error, and no item insert past the
first failing one is attempted. -/
theorem claim_C1_create_order_atomic (st : OrderDB) (req : OrderRequest)
    (now dbNow : Nat) (headerFail : Bool) (itemFail : Nat → Bool)
    (commitFail : Bool)
    (hvalid : ¬(req.userID = "" ∨ req.items = []))
    (hfresh : ∀ row ∈ st.orders, row.id ≠ st.nextID)
    (hfail : headerFail = true ∨ ∃ i, i < req.items.length ∧ itemFail i = true) :
    (createOrderHandler st req now dbNow headerFail itemFail commitFail).1 = st ∧
    ((createOrderHandler st req now dbNow headerFail itemFail commitFail).2.1
        = CreateResult.internalOrder ∨
     (createOrderHandler st req now dbNow headerFail itemFail commitFail).2.1
        = CreateResult.internalItems) ∧
    createStatus
        (createOrderHandler st req now dbNow headerFail itemFail commitFail).2.1
      = 500 ∧
    (∀ os, getUserOrdersHandler
         (createOrderHandler st req now dbNow headerFail itemFail commitFail).1
         req.userID false (fun _ => false) = ListResult.ok os →
       ∀ o ∈ os, o.id ≠ st.nextID) ∧
    (headerFail = true →
       (createOrderHandler st req now dbNow headerFail itemFail commitFail).2.2 = 0) ∧
    (headerFail = false →
       ∃ i, i < req.items.length ∧ itemFail i = true ∧
         (∀ j < i, itemFail j = false) ∧
         (createOrderHandler st req now dbNow headerFail itemFail commitFail).2.2
           = i + 1) := by
  cases headerFail with
  | true =>
    have hmain : createOrderHandler st req now dbNow true itemFail commitFail
        = (st, CreateResult.internalOrder, 0) := by
      unfold createOrderHandler
      rw [if_neg hvalid]
      simp
    refine ⟨by rw [hmain], Or.inl (by rw [hmain]), by rw [hmain]; rfl, ?_, ?_, ?_⟩
    · intro os hos o ho
      rw [hmain] at hos
      obtain ⟨row, hrow, hid⟩ := getUserOrders_ok_mem st req.userID _ os hos o ho
      rw [← hid]
      exact hfresh row hrow
    · intro _
      rw [hmain]
    · intro hcontra
      cases hcontra
  | false =>
    have hex : ∃ i, i < req.items.length ∧ itemFail i = true := by
      rcases hfail with hcontra | hex
      · cases hcontra
      · exact hex
    have hex0 : ∃ i, i < req.items.length ∧ itemFail (0 + i) = true := by
      obtain ⟨i, hi, hf⟩ := hex
      exact ⟨i, hi, by simpa using hf⟩
    obtain ⟨k, heq, hk1, hklt, hkfail, hkprev⟩ :=
      insertOrderItems_of_exists_fail st.nextID itemFail req.items
        { st with
          orders := st.orders
            ++ [{ id := st.nextID, userID := req.userID, total := req.total,
                  status := "pending", createdAt := dbNow }],
          nextID := st.nextID + 1 } 0 hex0
    have hmain : createOrderHandler st req now dbNow false itemFail commitFail
        = (st, CreateResult.internalItems, k) := by
      unfold createOrderHandler
      rw [if_neg hvalid]
      simp [heq]
    refine ⟨by rw [hmain], Or.inr (by rw [hmain]), by rw [hmain]; rfl, ?_, ?_, ?_⟩
    · intro os hos o ho
      rw [hmain] at hos
      obtain ⟨row, hrow, hid⟩ := getUserOrders_ok_mem st req.userID _ os hos o ho
      rw [← hid]
      exact hfresh row hrow
    · intro hcontra
      cases hcontra
    · intro _
      refine ⟨k - 1, hklt, by simpa using hkfail, ?_, ?_⟩
      · intro j hj
        simpa using hkprev j hj
      · rw [hmain]
        show k = k - 1 + 1
        omega

theorem claim_C1_create_order_atomic_witness :
    (¬(("u1" : String) = "" ∨ ([⟨1, 2⟩] : List OrderItem) = [])) ∧
    (createOrderHandler ⟨[], [], 1⟩ ⟨"u1", [⟨1, 2⟩], 10⟩ 0 0 false
        (fun _ => true) false).1 = ⟨[], [], 1⟩ :=
  ⟨by decide,
   (claim_C1_create_order_atomic ⟨[], [], 1⟩ ⟨"u1", [⟨1, 2⟩], 10⟩ 0 0 false
      (fun _ => true) false (by decide) (by simp) (Or.inr ⟨0, by decide, rfl⟩)).1⟩

/-- C5: for every decoded create-order request, the handler answers 400
with body error "User ID and items are required" exactly when `user_id` is
empty or `items` is empty, and in that case the database is untouched; the
rejection condition inspects nothing else (no check of `total` or of the
per-item fields against any catalog — the order service has none). -/
theorem claim_C5_create_validation (st : OrderDB) (req : OrderRequest)
    (now dbNow : Nat) (headerFail : Bool) (itemFail : Nat → Bool)
    (commitFail : Bool) :
    ((createOrderHandler st req now dbNow headerFail itemFail commitFail).2.1
        = CreateResult.invalidArg
      ↔ (req.userID = "" ∨ req.items = [])) ∧
    createStatus CreateResult.invalidArg = 400 ∧
    createErrorMsg CreateResult.invalidArg
      = some "User ID and items are required" ∧
    ((req.userID = "" ∨ req.items = []) →
      (createOrderHandler st req now dbNow headerFail itemFail commitFail).1
        = st) := by
  by_cases hc : req.userID = "" ∨ req.items = []
  · have hmain : createOrderHandler st req now dbNow headerFail itemFail commitFail
        = (st, CreateResult.invalidArg, 0) := by
      unfold createOrderHandler
      rw [if_pos hc]
    exact ⟨by rw [hmain]; simp [hc], rfl, rfl, fun _ => by rw [hmain]⟩
  · refine ⟨⟨?_, fun h => absurd h hc⟩, rfl, rfl, fun h => absurd h hc⟩
    intro h
    exfalso
    unfold createOrderHandler at h
    rw [if_neg hc] at h
    by_cases hH : headerFail = true
    · rw [if_pos hH] at h
      exact CreateResult.noConfusion h
    · rw [if_neg hH] at h
      dsimp only at h
      rcases hres : insertOrderItems st.nextID itemFail
          { st with
            orders := st.orders
              ++ [{ id := st.nextID, userID := req.userID, total := req.total,
                    status := "pending", createdAt := dbNow }],
            nextID := st.nextID + 1 } 0 req.items with ⟨ores, att⟩
      rw [hres] at h
      cases ores with
      | none => exact CreateResult.noConfusion h
      | some tx' =>
        simp only [] at h
        by_cases hC : commitFail = true
        · rw [if_pos hC] at h
          exact CreateResult.noConfusion h
        · rw [if_neg hC] at h
          exact CreateResult.noConfusion h

theorem claim_C5_create_validation_witness :
    (createOrderHandler ⟨[], [], 1⟩ ⟨"", [], 0⟩ 0 0 false (fun _ => false)
        false).2.1 = CreateResult.invalidArg ∧
    (createOrderHandler ⟨[], [], 1⟩ ⟨"", [], 0⟩ 0 0 false (fun _ => false)
        false).1 = ⟨[], [], 1⟩ :=
  ⟨(claim_C5_create_validation ⟨[], [], 1⟩ ⟨"", [], 0⟩ 0 0 false (fun _ => false)
      false).1.mpr (Or.inl rfl),
   (claim_C5_create_validation ⟨[], [], 1⟩ ⟨"", [], 0⟩ 0 0 false (fun _ => false)
      false).2.2.2 (Or.inl rfl)⟩

/-- C8: when the request passes validation and every store operation
succeeds, the response is 201 with the full order: the store-assigned id
(`nextID` of the sequence, positive), the request's `user_id` and `total`,
status fixed to "pending", and the items echoing the input sequence in
input order. -/
theorem claim_C8_create_success_response (st : OrderDB) (req : OrderRequest)
    (now dbNow : Nat)
    (hvalid : ¬(req.userID = "" ∨ req.items = []))
    (hpos : 0 < st.nextID) :
    ∃ o, (createOrderHandler st req now dbNow false (fun _ => false) false).2.1
        = CreateResult.created o ∧
      createStatus (CreateResult.created o) = 201 ∧
      o.id = st.nextID ∧ 0 < o.id ∧ o.userID = req.userID ∧
      o.total = req.total ∧ o.status = "pending" ∧ o.items = req.items := by
  obtain ⟨tx', htx'⟩ :=
    insertOrderItems_all_ok st.nextID (fun _ => false) req.items
      { st with
        orders := st.orders
          ++ [{ id := st.nextID, userID := req.userID, total := req.total,
                status := "pending", createdAt := dbNow }],
        nextID := st.nextID + 1 } 0 (fun _ _ => rfl)
  refine ⟨{ id := st.nextID, userID := req.userID, items := req.items,
            total := req.total, status := "pending", createdAt := now },
          ?_, rfl, rfl, hpos, rfl, rfl, rfl, rfl⟩
  unfold createOrderHandler
  rw [if_neg hvalid]
  simp [htx']

theorem claim_C8_create_success_response_witness :
    (¬(("u1" : String) = "" ∨ ([⟨1, 2⟩] : List OrderItem) = [])) ∧
    (0 : Int) < 1 ∧
    ∃ o, (createOrderHandler ⟨[], [], 1⟩ ⟨"u1", [⟨1, 2⟩], 1999.98⟩ 0 0 false
        (fun _ => false) false).2.1 = CreateResult.created o ∧
      createStatus (CreateResult.created o) = 201 ∧
      o.id = 1 ∧ 0 < o.id ∧ o.userID = "u1" ∧ o.total = 1999.98 ∧
      o.status = "pending" ∧ o.items = [⟨1, 2⟩] :=
  ⟨by decide, by decide,
   claim_C8_create_success_response ⟨[], [], 1⟩ ⟨"u1", [⟨1, 2⟩], 1999.98⟩ 0 0
     (by decide) (by decide)⟩

/-- Database used to refute C2 as stated: user "u1" has one order, id 1,
with no item rows. -/
def c2DB : OrderDB :=
  { orders := [{ id := 1, userID := "u1", total := 5, status := "pending",
                 createdAt := 0 }],
    orderItems := [],
    nextID := 2 }

/-- C2 is false as stated: in `getUserOrdersHandler`, a failed per-order
item query hits `continue` before the order is appended, so the order is
dropped from the response, not included with an empty item list. Here user
"u1" has exactly one order (id 1), its item query fails, and the handler
returns the empty list. -/
theorem claim_C2_counterexample_order_dropped :
    (∃ row ∈ c2DB.orders, row.userID = "u1" ∧ row.id = 1) ∧
    (fun oid : Int => oid == 1) 1 = true ∧
    getUserOrdersHandler c2DB "u1" false (fun oid : Int => oid == 1)
      = ListResult.ok [] := by
  refine ⟨⟨_, List.mem_singleton_self _, rfl, rfl⟩, rfl, ?_⟩
  decide

/-- C2 amended: per-order item-fetch failures are swallowed — the request
still succeeds — but an order whose item query fails is omitted from the
returned sequence (rather than included with an empty item list); orders
whose item query succeeds are returned with their items. -/
theorem claim_C2_amended_failed_orders_omitted (st : OrderDB) (uid : String)
    (itemQF : Int → Bool) :
    ∃ os, getUserOrdersHandler st uid false itemQF = ListResult.ok os ∧
      (∀ o ∈ os, itemQF o.id = false) ∧
      (∀ row ∈ st.orders, row.userID = uid → itemQF row.id = false →
         ∃ o ∈ os, o.id = row.id ∧ o.items = itemsForOrder st row.id) := by
  refine ⟨_, rfl, ?_, ?_⟩
  · intro o ho
    obtain ⟨row, hrow, hsome⟩ := List.mem_filterMap.mp ho
    by_cases hq : itemQF row.id
    · simp [hq] at hsome
    · simp only [hq, if_false, Bool.false_eq_true] at hsome
      cases hsome
      simpa using hq
  · intro row hrow huid hq
    refine ⟨{ id := row.id, userID := row.userID, items := itemsForOrder st row.id,
              total := row.total, status := row.status,
              createdAt := row.createdAt }, ?_, rfl, rfl⟩
    refine List.mem_filterMap.mpr ⟨row, ?_, ?_⟩
    · exact List.mem_filter.mpr ⟨hrow, by simp [huid]⟩
    · simp [hq]

theorem claim_C2_amended_failed_orders_omitted_witness :
    ∃ os, getUserOrdersHandler c2DB "u1" false (fun oid : Int => oid == 1)
        = ListResult.ok os ∧
      (∀ o ∈ os, (fun oid : Int => oid == 1) o.id = false) ∧
      (∀ row ∈ c2DB.orders, row.userID = "u1" →
         (fun oid : Int => oid == 1) row.id = false →
         ∃ o ∈ os, o.id = row.id ∧ o.items = itemsForOrder c2DB row.id) :=
  claim_C2_amended_failed_orders_omitted c2DB "u1" (fun oid : Int => oid == 1)

/-- C10: a non-numeric order id reaches the relational query unparsed; the
store rejects it with an error that is not `sql.ErrNoRows`, so
`getOrderDetailHandler` answers 500 Internal — not 404, not the order, and
there is no 400 path in this handler at all. -/
theorem claim_C10_detail_non_numeric_internal (st : OrderDB) (s : String)
    (itemQF : Bool) (h : goAtoi s = none) :
    getOrderDetailHandler st s itemQF = DetailResult.internalErr ∧
    getOrderDetailHandler st s itemQF ≠ DetailResult.notFound ∧
    ∀ o, getOrderDetailHandler st s itemQF ≠ DetailResult.ok o := by
  have hq : queryOrderByIDString st s = RowQueryResult.queryErr := by
    simp [queryOrderByIDString, h]
  refine ⟨?_, ?_, ?_⟩ <;> simp [getOrderDetailHandler, hq]

theorem claim_C10_detail_non_numeric_internal_witness :
    goAtoi "abc" = none ∧
    getOrderDetailHandler initialDB "abc" false = DetailResult.internalErr :=
  ⟨by decide,
   (claim_C10_detail_non_numeric_internal initialDB "abc" false (by decide)).1⟩

theorem claim_C9_product_lookup_trichotomy_witness :
    getProductByIDHandler "2"
      = ProductResp.ok { id := 2, name := "Mouse", description := "Wireless mouse",
                         price := 29.99, stock := 50 } :=
  ((claim_C9_product_lookup_trichotomy "2").2.1 _).mpr
    ⟨2, by decide, by simp [products], by decide⟩
